import Mathlib

/-!
Verification of the voxel-scene loading core of the `bevy_vox_scene` repository.

The Rust sources are shallowly embedded in Lean:

* `src/load/voxel.rs` — the voxel grid builder (`load_from_model`), with `u32`
  arithmetic made explicit as natural numbers reduced modulo `2 ^ 32` where the
  source performs machine arithmetic, and the panicking vector write
  `voxels[index] = …` made explicit as an `Option`-valued update (`none` models
  a Rust panic / fault).
* `src/scene/queryable.rs` — the voxel query interface (`get_voxel_at_point`,
  `point_in_model`, `local` size conversions).
* `src/load/parse_scene.rs` — the two scene-graph passes (`find_model_names`,
  `parse_scene_graph` / `load_xform_node` / `load_xform_child`), with the
  `bevy` entity world modelled as an explicit tree of component records, the
  asset context modelled as the list of registered sub-asset labels, and the
  `warn!` log modelled as a list of warning strings.  Recursion through the
  scene graph is fuel-indexed; exhausted fuel yields `none`, exactly like the
  faults above, so every theorem below is stated for runs that return `some`.

Floating point appears in the sources only in the rotation/scale matrix math of
`transform_from_frame` (delegated by the source to the external `dot_vox` and
`bevy` libraries) and in the refractive indices (which the grid builder only
stores and compares for presence).  Rational numbers stand in for the stored
values, and the external rotation math is a parameter `rotOf` of the embedding;
no theorem below depends on its value.
-/

namespace VoxScene

/-! ## Machine integers

`u32` values are embedded as `Nat` together with explicit reduction modulo
`2 ^ 32` at every operation that can wrap in the source. -/

/-- Modulus of Rust `u32` arithmetic. -/
def U32LIM : Nat := 2 ^ 32

/-- Wrapping reduction of a natural number into `u32` range. -/
def wrap32 (n : Nat) : Nat := n % U32LIM

/-- Wrapping `u32` subtraction (release-mode semantics of `a - b`; a debug
build would panic on underflow, and every underflowing use below leads to the
same fault either way). Arguments are assumed already in `u32` range. -/
def sub32 (a b : Nat) : Nat := (a + U32LIM - b) % U32LIM

/-! ## The voxel grid builder, from `src/load/voxel.rs` -/

/-- Embeds `Voxel` from `src/load/voxel.rs` (`index: u8`, `is_translucent: bool`). -/
structure Voxel where
  index : Nat
  is_translucent : Bool
deriving DecidableEq, Repr

/-- Embeds `EMPTY_VOXEL` from `src/load/voxel.rs`: index 255, not translucent. -/
def EMPTY_VOXEL : Voxel := ⟨255, false⟩

/-- Embeds `dot_vox::Voxel`, a sparse source voxel: position bytes `x`, `y`,
`z` and material index byte `i`. -/
structure DotVoxel where
  x : Nat
  y : Nat
  z : Nat
  i : Nat
deriving DecidableEq, Repr

/-- Embeds `dot_vox::Size`: `u32` extents of a source model. -/
structure VSize where
  x : Nat
  y : Nat
  z : Nat
deriving DecidableEq, Repr

/-- Embeds `dot_vox::Model`: extents plus the sparse voxel list. -/
structure DotVoxModel where
  size : VSize
  voxels : List DotVoxel
deriving DecidableEq, Repr

/-- Embeds `ndshape::RuntimeShape::<u32, 3>`: the three `u32` extents of the
dense grid.  The strides of the source shape are `[1, d0, d0 * d1]`. -/
structure RuntimeShape where
  d0 : Nat
  d1 : Nat
  d2 : Nat
deriving DecidableEq, Repr

/-- Embeds `RuntimeShape::size`: the product of the extents in `u32`
arithmetic. -/
def RuntimeShape.size (s : RuntimeShape) : Nat := wrap32 (s.d0 * s.d1 * s.d2)

/-- Embeds `RuntimeShape::linearize`: dot product of the coordinate with the
strides `[1, d0, d0 * d1]` in `u32` arithmetic (composing the wrapping of the
intermediate products and sums into one final reduction is exact). -/
def RuntimeShape.linearize (s : RuntimeShape) (p0 p1 p2 : Nat) : Nat :=
  wrap32 (p0 + s.d0 * p1 + s.d0 * s.d1 * p2)

/-- Embeds `VoxelData` from `src/load/voxel.rs`: the grid shape and the dense
voxel vector. -/
structure VoxelData where
  shape : RuntimeShape
  voxels : List Voxel
deriving DecidableEq, Repr

/-- Embeds the `HashMap<u8, f32>` lookup `translucent_voxels.get(&voxel.i)`:
an association-list lookup from material index to refractive index (hash map
keys are unique, so first match is the map entry). -/
def lookupIor (tv : List (Nat × ℚ)) (i : Nat) : Option ℚ :=
  (tv.find? (fun e => e.1 = i)).map (fun e => e.2)

/-- The flat index targeted by one sparse voxel write in `load_from_model`:
`shape.linearize([size.x - x, z + 1, y + 1])` in `u32` arithmetic. -/
def targetIndex (shape : RuntimeShape) (sizex : Nat) (v : DotVoxel) : Nat :=
  shape.linearize (sub32 sizex v.x) (wrap32 (v.z + 1)) (wrap32 (v.y + 1))

/-- Embeds the `for_each` write loop of `load_from_model`: each sparse voxel is
written at its `targetIndex`, pushing its refractive index (if any) first.
`voxels[index] = …` panics when `index` is out of range; that fault is `none`. -/
def writeVoxels (shape : RuntimeShape) (sizex : Nat) (tv : List (Nat × ℚ)) :
    List DotVoxel → List Voxel → List ℚ → Option (List Voxel × List ℚ)
  | [], vs, ri => some (vs, ri)
  | v :: rest, vs, ri =>
    let index := targetIndex shape sizex v
    let ior := lookupIor tv v.i
    let ri' := match ior with
      | some r => ri ++ [r]
      | none => ri
    if index < vs.length then
      writeVoxels shape sizex tv rest (vs.set index ⟨v.i, ior.isSome⟩) ri'
    else none

/-- Embeds `load_from_model` from `src/load/voxel.rs`: allocate a grid of
extents `[size.x + 2, size.z + 2, size.y + 2]` filled with `EMPTY_VOXEL`, then
write every sparse voxel at `linearize([size.x - x, z + 1, y + 1])`, flagged
translucent exactly when its material index is in the refractive map, while
accumulating encountered refractive indices.  A Rust panic is `none`. -/
def load_from_model (model : DotVoxModel) (translucent_voxels : List (Nat × ℚ)) :
    Option (VoxelData × List ℚ) :=
  let shape : RuntimeShape :=
    ⟨wrap32 (model.size.x + 2), wrap32 (model.size.z + 2), wrap32 (model.size.y + 2)⟩
  match writeVoxels shape model.size.x translucent_voxels model.voxels
      (List.replicate shape.size EMPTY_VOXEL) [] with
  | none => none
  | some (vs, ri) => some (⟨shape, vs⟩, ri)

/-- The write (if any) that determines the final content of flat cell `j`:
the last sparse voxel of the list whose `targetIndex` is `j` (later writes
overwrite earlier ones, and `find?` on the reversed list returns it). -/
def lastWrite (shape : RuntimeShape) (sizex : Nat) (l : List DotVoxel) (j : Nat) :
    Option DotVoxel :=
  l.reverse.find? (fun v => targetIndex shape sizex v = j)

/-! ## The voxel query interface, from `src/scene/queryable.rs` -/

/-- Embeds `bevy::math::IVec3` (three `i32` components) as integer triples. -/
structure IVec3 where
  x : Int
  y : Int
  z : Int
deriving DecidableEq, Repr

/-- Modelled from the spec: `VoxelData::padding` lives in `model/data.rs`,
which is not among the sources; §3 of the spec states the grid is padded by
one empty cell on every side of the model, i.e. a total padding of 2 per axis
(`src/scene/queryable.rs` divides it by two to obtain the leading padding). -/
def VoxelData.padding (_ : VoxelData) : Nat := 2

/-- Modelled from the spec: `VoxelData::size` lives in `model/data.rs`, which
is not among the sources; §3 of the spec states the padded extents equal the
source size + 2 per axis, so the unpadded size is the shape extents minus the
padding (a `u32` subtraction; extents of a built grid are at least 2). -/
def VoxelData.size (d : VoxelData) : Nat × Nat × Nat :=
  (sub32 d.shape.d0 d.padding, sub32 d.shape.d1 d.padding, sub32 d.shape.d2 d.padding)

/-- Embeds `VoxelModel` from `src/model/mod.rs` (the mesh and material asset
handles are embedded as their label strings). -/
structure VoxelModel where
  name : String
  data : VoxelData
  mesh : String
  material : String
  has_translucency : Bool

/-- Embeds `VoxelQueryable::size` for `VoxelModel`:
`IVec3::try_from(self.data.size()).unwrap_or(IVec3::ZERO)` — the unpadded
size as signed integers, or zero if any component exceeds `i32` range. -/
def VoxelModel.sizeI (m : VoxelModel) : IVec3 :=
  if m.data.size.1 < 2 ^ 31 ∧ m.data.size.2.1 < 2 ^ 31 ∧ m.data.size.2.2 < 2 ^ 31 then
    ⟨(m.data.size.1 : Int), (m.data.size.2.1 : Int), (m.data.size.2.2 : Int)⟩
  else ⟨0, 0, 0⟩

/-- Embeds `point_in_model` from `src/scene/queryable.rs`: `none` when any
component of the point is `≥` the corresponding size component
(`greater_than_or_equal(..).any()`), then `UVec3::try_from(point).ok()`,
which is `none` when any component is negative. -/
def VoxelModel.point_in_model (m : VoxelModel) (point : IVec3) : Option (Nat × Nat × Nat) :=
  let s := m.sizeI
  if s.x ≤ point.x ∨ s.y ≤ point.y ∨ s.z ≤ point.z then none
  else if point.x < 0 ∨ point.y < 0 ∨ point.z < 0 then none
  else some (point.x.toNat, point.y.toNat, point.z.toNat)

/-- Embeds `get_voxel_at_point` from `src/scene/queryable.rs`: bounds-check
via `point_in_model`, offset by the leading padding (`padding() / 2`, a `u32`
addition), linearize, and look the flat index up in the dense vector
(`voxels.get(index)?`; the `RawVoxel → Voxel` conversion is the identity on
the data stored by `load_from_model`). -/
def VoxelModel.get_voxel_at_point (m : VoxelModel) (position : IVec3) : Option Voxel :=
  match m.point_in_model position with
  | none => none
  | some q =>
    let lp := m.data.padding / 2
    let index := m.data.shape.linearize (wrap32 (q.1 + lp)) (wrap32 (q.2.1 + lp))
      (wrap32 (q.2.2 + lp))
    m.data.voxels.get? index

/-- The last sparse voxel of a model written at a given source coordinate
(`x`, `y`, `z` in the source model's own axis convention). -/
def sourceVoxelAt (model : DotVoxModel) (c : Nat × Nat × Nat) : Option DotVoxel :=
  model.voxels.reverse.find? (fun v => v.x = c.1 ∧ v.y = c.2.1 ∧ v.z = c.2.2)

/-! ## Scene-graph data, from `src/load/parse_scene.rs` and its `dot_vox` inputs -/

/-- Embeds `dot_vox::Frame` through its two accessors used by the source:
`position()` (the parsed `"_t"` attribute, three `i32`s) and `orientation()`
(the parsed `"_r"` attribute, a packed signed-permutation byte).  Parsing the
raw attribute strings is done by the external `dot_vox` decoder, outside this
repository's scope. -/
structure Frame where
  position : Option IVec3
  orientation : Option Nat
deriving DecidableEq, Repr

/-- Embeds `dot_vox::ShapeModel`: the referenced model id plus attributes. -/
structure ShapeModel where
  model_id : Nat
  attributes : List (String × String)
deriving DecidableEq, Repr

/-- Embeds `dot_vox::SceneNode`: the tagged Transform/Group/Shape variant.
Attribute dictionaries are association lists; `child`, `children` and
`layer_id` are indices into the scene-node and layer lists. -/
inductive SceneNode where
  | transform (attributes : List (String × String)) (frames : List Frame)
      (child : Nat) (layerId : Nat)
  | group (attributes : List (String × String)) (children : List Nat)
  | shape (attributes : List (String × String)) (models : List ShapeModel)
deriving DecidableEq, Repr

/-- Embeds `Dict::get` on an attribute dictionary. -/
def dictGet (d : List (String × String)) (k : String) : Option String :=
  (d.find? (fun e => e.1 = k)).map (fun e => e.2)

/-- Modelled from the spec: `LayerInfo` is declared in `load/components.rs`,
which is not among the sources; §3 of the spec states it carries a name and a
hidden flag, matching its construction and uses in `src/load/mod.rs` and
`src/load/parse_scene.rs`. -/
structure LayerInfo where
  name : String
  is_hidden : Bool
deriving DecidableEq, Repr

/-- Embeds `get_accumulated_and_node_name` from `src/load/parse_scene.rs`:
the accumulated path and the node's own display name, joined with a slash
when both parent and own name are present; an unnamed node passes its
parent's accumulated name through with no own name. -/
def get_accumulated_and_node_name (parent_name node_name : Option String) :
    Option String × Option String :=
  match parent_name, node_name with
  | none, none => (none, none)
  | none, some nm => (some nm, some nm)
  | some pn, none => (some pn, none)
  | some pn, some nm =>
    let accumulated := pn ++ "/" ++ nm
    (some accumulated, some accumulated)

/-- Warning text of `parse_bool` in `src/load/parse_scene.rs`. -/
def invalidBoolWarning : String := "Invalid boolean string"

/-- Embeds `parse_bool` from `src/load/parse_scene.rs`: `"1"` is true, `"0"`
is false, any other string is false with a logged warning, absence is false.
The returned list is the warning log the call emits. -/
def parse_bool (value : Option String) : Bool × List String :=
  match value with
  | some "1" => (true, [])
  | some "0" => (false, [])
  | some _ => (false, [invalidBoolWarning])
  | none => (false, [])

mutual

/-- Embeds `find_model_names` from `src/load/parse_scene.rs` (the name
discovery pass).  `none` models a Rust panic: an out-of-range `graph[child]`,
`models[0]` on an empty list, or `name_for_model[model_id]` out of range.
Fuel bounds the recursion depth; exhaustion is also `none`. -/
def find_model_names (fuel : Nat) (name_for_model : List (Option String))
    (graph : List SceneNode) (scene_node : SceneNode) (parent_name : Option String) :
    Option (List (Option String)) :=
  match fuel with
  | 0 => none
  | fuel + 1 =>
    match scene_node with
    | .transform attributes _ child _ =>
      let an := get_accumulated_and_node_name parent_name (dictGet attributes "_name")
      let accumulated := an.1
      let node_name := an.2
      match graph.get? child with
      | none => none
      | some (.group _ children) =>
        find_model_names_children fuel name_for_model graph children accumulated
      | some (.shape _ models) =>
        match models.head? with
        | none => none
        | some m =>
          match name_for_model.get? m.model_id with
          | none => none
          | some _ =>
            match node_name with
            | some nm => some (name_for_model.set m.model_id (some nm))
            | none => some name_for_model
      | some _ => some name_for_model
    | _ => some name_for_model

/-- Embeds the `for grandchild in children` loop of `find_model_names`,
threading the updated name table through the recursive calls. -/
def find_model_names_children (fuel : Nat) (name_for_model : List (Option String))
    (graph : List SceneNode) (children : List Nat) (accumulated : Option String) :
    Option (List (Option String)) :=
  match fuel with
  | 0 => none
  | fuel + 1 =>
    match children with
    | [] => some name_for_model
    | c :: rest =>
      match graph.get? c with
      | none => none
      | some grandchild =>
        match find_model_names fuel name_for_model graph grandchild accumulated with
        | none => none
        | some names' => find_model_names_children fuel names' graph rest accumulated

end

/-! ## Node transforms, from `transform_from_frame` in `src/load/parse_scene.rs` -/

/-- Embeds `bevy::math::Mat4` over the rationals. -/
abbrev Mat4Q := Matrix (Fin 4) (Fin 4) ℚ

/-- Embeds `bevy::math::Mat3` over the rationals. -/
abbrev Mat3Q := Matrix (Fin 3) (Fin 3) ℚ

/-- Embeds `Mat4::from_translation`: identity with the translation vector in
the last column. -/
def mat4FromTranslation (v : ℚ × ℚ × ℚ) : Mat4Q :=
  Matrix.of fun i j =>
    if i = j then 1
    else if j = 3 then
      match i with
      | 0 => v.1
      | 1 => v.2.1
      | 2 => v.2.2
      | _ => 0
    else 0

/-- Embeds `Mat4::from_mat3`: the 3×3 block in the upper left, 1 at (3,3). -/
def mat4FromMat3 (m : Mat3Q) : Mat4Q :=
  Matrix.of fun i j =>
    if hi : i.val < 3 then
      if hj : j.val < 3 then m ⟨i.val, hi⟩ ⟨j.val, hj⟩ else 0
    else if j = 3 then 1 else 0

/-- Embeds `transform_from_frame` from `src/load/parse_scene.rs`: a frame
with no position attribute yields the identity matrix; otherwise the
translation (axes permuted and X negated, scaled by the scene scale) is
multiplied by the rotation-and-scale matrix of the orientation attribute, or
the identity when there is none.  The rotation-and-scale computation
(`dot_vox::Rotation::to_quat_scale`, `Quat::to_axis_angle`,
`Mat3::from_axis_angle`, `Mat3::from_diagonal` — floating-point trigonometry
of the external `dot_vox` and `bevy` libraries) is the parameter `rotOf`; no
theorem below depends on its value. -/
def transform_from_frame (rotOf : Nat → Mat3Q) (frame : Frame) (scene_scale : ℚ) : Mat4Q :=
  match frame.position with
  | none => 1
  | some p =>
    let position : ℚ × ℚ × ℚ :=
      ((-(p.x : ℚ)) * scene_scale, (p.z : ℚ) * scene_scale, (p.y : ℚ) * scene_scale)
    let translation := mat4FromTranslation position
    let rotation : Mat4Q :=
      match frame.orientation with
      | some orientation => mat4FromMat3 (rotOf orientation)
      | none => 1
    translation * rotation

/-! ## The tree-build pass, from `src/load/parse_scene.rs`

The `bevy` world is embedded as a tree of `BNode` records: spawning an empty
entity is `BNode.empty`, and each `insert` overwrites the corresponding
component fields.  `PbrBundle` and `SpatialBundle::default()` carry a default
(identity) `Transform` and default (`Inherited`) `Visibility`.  The asset
`LoadContext` is embedded as the list of sub-asset labels registered by
`labeled_asset_scope`, and `warn!` as a list of warning strings; all three are
threaded through the traversal in a `PState` record. -/

/-- Embeds `bevy::prelude::Visibility` as used by the source (only the
`Inherited` default and `Hidden` appear). -/
inductive Visibility where
  | inherited
  | hidden
deriving DecidableEq, Repr

/-- Embeds one spawned `bevy` entity: its inserted components and children. -/
structure BNode where
  transform : Option Mat4Q
  visibility : Option Visibility
  name : Option String
  layer : Option (Nat × String)
  mesh : Option String
  material : Option String
  modelInstance : Option String
  children : List BNode

/-- Embeds `world.spawn_empty()` / `builder.spawn_empty()`. -/
def BNode.empty : BNode := ⟨none, none, none, none, none, none, none, []⟩

/-- Embeds the traversal state: the `subassets` dedup set (as the list of
names in insertion order), the labels passed to `labeled_asset_scope` (the
registered sub-scenes), and the `warn!` log. -/
structure PState where
  subassets : List String
  registered : List String
  warnings : List String
deriving DecidableEq, Repr

/-- Warning text of the orphan Group/Shape branch of `load_xform_node`. -/
def orphanWarning : String := "Found Group or Shape Node without a parent Transform"

/-- Warning text of the nested-Transform branch of `load_xform_child`. -/
def nestedWarning : String := "Found nested Transform nodes"

mutual

/-- Embeds `load_xform_node` from `src/load/parse_scene.rs`.  A Transform
node builds its child first, then inserts its frame transform, layer,
visibility and name, and registers a named node as a sub-scene when its name
is not yet in the dedup set (running `parse_scene_graph` on itself inside the
scope).  A Group or Shape without an enclosing Transform logs a warning and
is processed in a freshly spawned wrapper node.  `none` models a Rust panic
(out-of-range index, `frames[0]` or `models[0]` on an empty list) or
exhausted fuel. -/
def load_xform_node (rotOf : Nat → Mat3Q) (fuel : Nat) (graph : List SceneNode)
    (scene_node : SceneNode) (parent_name : Option String)
    (model_names : List (Option String)) (layers : List LayerInfo)
    (scene_scale : ℚ) (st : PState) : Option (BNode × PState) :=
  match fuel with
  | 0 => none
  | fuel + 1 =>
    match scene_node with
    | .transform attributes frames child layerId =>
      let an := get_accumulated_and_node_name parent_name (dictGet attributes "_name")
      let accumulated := an.1
      let node_name := an.2
      match graph.get? child with
      | none => none
      | some childNode =>
        match load_xform_child rotOf fuel graph childNode BNode.empty accumulated
            model_names layers scene_scale st with
        | none => none
        | some (b, st1) =>
          match frames.head? with
          | none => none
          | some frame =>
            let b := { b with
              transform := some (transform_from_frame rotOf frame scene_scale) }
            let maybeLayer := layers.get? layerId
            let b := match maybeLayer with
              | some layer => { b with layer := some (layerId, layer.name) }
              | none => b
            let pb := parse_bool (dictGet attributes "_hidden")
            let st1 := { st1 with warnings := st1.warnings ++ pb.2 }
            let layerIsHidden := (maybeLayer.map LayerInfo.is_hidden).getD false
            let visibility :=
              if pb.1 || layerIsHidden then Visibility.hidden else Visibility.inherited
            let b := { b with visibility := some visibility }
            match node_name with
            | none => some (b, st1)
            | some nm =>
              let b := { b with name := some nm }
              if nm ∈ st1.subassets then some (b, st1)
              else
                let st2 := { st1 with
                  subassets := st1.subassets ++ [nm],
                  registered := st1.registered ++ [nm] }
                match parse_scene_graph rotOf fuel graph scene_node parent_name
                    model_names layers scene_scale st2 with
                | none => none
                | some (_, st3) => some (b, st3)
    | .group _ _ =>
      let st := { st with warnings := st.warnings ++ [orphanWarning] }
      load_xform_child rotOf fuel graph scene_node BNode.empty parent_name
        model_names layers scene_scale st
    | .shape _ _ =>
      let st := { st with warnings := st.warnings ++ [orphanWarning] }
      load_xform_child rotOf fuel graph scene_node BNode.empty parent_name
        model_names layers scene_scale st

/-- Embeds `load_xform_child` from `src/load/parse_scene.rs`: a nested
Transform logs a warning, receives a default spatial bundle on the wrapper
node and recurses as a child; a Group receives a default spatial bundle and
its children are processed in order; a Shape resolves its first model's name
(or the synthesized `model-{index}` name) and receives the mesh, material and
model-instance handles labelled by that name. -/
def load_xform_child (rotOf : Nat → Mat3Q) (fuel : Nat) (graph : List SceneNode)
    (scene_node : SceneNode) (node : BNode) (parent_name : Option String)
    (model_names : List (Option String)) (layers : List LayerInfo)
    (scene_scale : ℚ) (st : PState) : Option (BNode × PState) :=
  match fuel with
  | 0 => none
  | fuel + 1 =>
    match scene_node with
    | .transform _ _ _ _ =>
      let st := { st with warnings := st.warnings ++ [nestedWarning] }
      let node := { node with transform := some 1, visibility := some Visibility.inherited }
      match load_xform_node rotOf fuel graph scene_node parent_name model_names
          layers scene_scale st with
      | none => none
      | some (childB, st') =>
        some ({ node with children := node.children ++ [childB] }, st')
    | .group _ children =>
      let node := { node with transform := some 1, visibility := some Visibility.inherited }
      load_xform_children rotOf fuel graph children node parent_name model_names
        layers scene_scale st
    | .shape _ models =>
      match models.head? with
      | none => none
      | some m =>
        match model_names.get? m.model_id with
        | none => none
        | some maybe_name =>
          let model_name := maybe_name.getD ("model-" ++ toString m.model_id)
          some ({ node with
            mesh := some (model_name ++ "@mesh"),
            material := some (model_name ++ "@material"),
            transform := some 1,
            visibility := some Visibility.inherited,
            modelInstance := some (model_name ++ "@model") }, st)

/-- Embeds the `for child in children` loop inside the Group branch of
`load_xform_child`, spawning one child node per entry. -/
def load_xform_children (rotOf : Nat → Mat3Q) (fuel : Nat) (graph : List SceneNode)
    (children : List Nat) (node : BNode) (parent_name : Option String)
    (model_names : List (Option String)) (layers : List LayerInfo)
    (scene_scale : ℚ) (st : PState) : Option (BNode × PState) :=
  match fuel with
  | 0 => none
  | fuel + 1 =>
    match children with
    | [] => some (node, st)
    | c :: rest =>
      match graph.get? c with
      | none => none
      | some childNode =>
        match load_xform_node rotOf fuel graph childNode parent_name model_names
            layers scene_scale st with
        | none => none
        | some (childB, st') =>
          load_xform_children rotOf fuel graph rest
            { node with children := node.children ++ [childB] } parent_name
            model_names layers scene_scale st'

/-- Embeds `parse_scene_graph` from `src/load/parse_scene.rs`: the root
Transform's own frame transform is ignored and no sub-scene registration
happens for the root, but its child, layer, visibility and name are processed
as in `load_xform_node`; a non-Transform root yields an empty world
(`none` in the first component). -/
def parse_scene_graph (rotOf : Nat → Mat3Q) (fuel : Nat) (graph : List SceneNode)
    (scene_node : SceneNode) (parent_name : Option String)
    (model_names : List (Option String)) (layers : List LayerInfo)
    (scene_scale : ℚ) (st : PState) : Option (Option BNode × PState) :=
  match fuel with
  | 0 => none
  | fuel + 1 =>
    match scene_node with
    | .transform attributes _ child layerId =>
      let an := get_accumulated_and_node_name parent_name (dictGet attributes "_name")
      let accumulated := an.1
      let node_name := an.2
      match graph.get? child with
      | none => none
      | some childNode =>
        match load_xform_child rotOf fuel graph childNode BNode.empty accumulated
            model_names layers scene_scale st with
        | none => none
        | some (b, st1) =>
          let maybeLayer := layers.get? layerId
          let b := match maybeLayer with
            | some layer => { b with layer := some (layerId, layer.name) }
            | none => b
          let pb := parse_bool (dictGet attributes "_hidden")
          let st1 := { st1 with warnings := st1.warnings ++ pb.2 }
          let layerIsHidden := (maybeLayer.map LayerInfo.is_hidden).getD false
          let visibility :=
            if pb.1 || layerIsHidden then Visibility.hidden else Visibility.inherited
          let b := { b with visibility := some visibility }
          let b := match node_name with
            | some nm => { b with name := some nm }
            | none => b
          some (some b, st1)
    | _ => some (none, st)

end

/-! ## Auxiliary definitions used by the theorems below -/

/-- A grid coordinate lies in the one-cell padding shell: some component is 0
or the last index of its axis. -/
def paddingCell (s : RuntimeShape) (g0 g1 g2 : Nat) : Prop :=
  g0 = 0 ∨ g0 + 1 = s.d0 ∨ g1 = 0 ∨ g1 + 1 = s.d1 ∨ g2 = 0 ∨ g2 + 1 = s.d2

instance (s : RuntimeShape) (g0 g1 g2 : Nat) : Decidable (paddingCell s g0 g1 g2) := by
  unfold paddingCell
  infer_instance

/-- C5, spec-side formulation: the accumulated path is the slash-join of the
optional parent path and optional own name, omitting the absent segments, or
nothing when both are absent. -/
def accumulated_path (parent_name node_name : Option String) : Option String :=
  match parent_name.toList ++ node_name.toList with
  | [] => none
  | segs => some (String.intercalate "/" segs)

/-- Registration invariant of the tree-build pass: the registered sub-scene
names are pairwise distinct and all present in the dedup set. -/
def SInv (s : PState) : Prop :=
  s.registered.Nodup ∧ ∀ n ∈ s.registered, n ∈ s.subassets

/-- One traversal step only appends to the warning log and the dedup set, and
preserves the registration invariant. -/
def StepOk (s t : PState) : Prop :=
  (∀ x, x ∈ s.warnings → x ∈ t.warnings)
  ∧ (∀ x, x ∈ s.subassets → x ∈ t.subassets)
  ∧ (SInv s → SInv t)

/-- Concrete stand-in for the abstracted external rotation math. -/
def rotIdentity : Nat → Mat3Q := fun _ => 1

/-- Truncation of every Shape's model list to its first entry; nodes of the
other kinds are unchanged. -/
def truncModels : SceneNode → SceneNode
  | .shape attributes models => .shape attributes (models.take 1)
  | n => n

/-- C2 witness model: a 1×1×1 model holding one voxel of refractive
material 7. -/
def c2Model : DotVoxModel := ⟨⟨1, 1, 1⟩, [⟨0, 0, 0, 7⟩]⟩

/-- C4 counterexample graph: a root Transform named "A" whose Group child
contains an unnamed Transform wrapping a Shape that references model 0.  The
Shape is reached with accumulated name "A", yet no name is assigned. -/
def c4Graph : List SceneNode :=
  [.transform [("_name", "A")] [] 1 0,
   .group [] [2],
   .transform [] [] 3 0,
   .shape [] [⟨0, []⟩]]

/-- C6 witness node: a Transform with a malformed `_hidden` attribute and an
unresolvable layer id over a Shape child. -/
def c6Node : SceneNode := .transform [("_hidden", "banana")] [⟨none, none⟩] 0 7

/-- C6 witness run and its resulting node and state. -/
def c6Run : Option (BNode × PState) :=
  load_xform_node rotIdentity 5 [.shape [] [⟨0, []⟩]] c6Node none [none] [] 1 ⟨[], [], []⟩

/-- Node produced by the C6 witness run. -/
def c6B : BNode := (c6Run.getD (BNode.empty, ⟨[], [], []⟩)).1

/-- State produced by the C6 witness run. -/
def c6St : PState := (c6Run.getD (BNode.empty, ⟨[], [], []⟩)).2

/-- C8 witness graph: a root Transform over a Group with two sibling
Transforms that share the name "A", each wrapping a Shape referencing
model 0. -/
def c8Graph : List SceneNode :=
  [.transform [] [⟨none, none⟩] 1 0,
   .group [] [2, 4],
   .transform [("_name", "A")] [⟨none, none⟩] 3 0,
   .shape [] [⟨0, []⟩],
   .transform [("_name", "A")] [⟨none, none⟩] 5 0,
   .shape [] [⟨0, []⟩]]

/-- C8 witness run and its resulting node and state. -/
def c8Run : Option (BNode × PState) :=
  load_xform_node rotIdentity 20 c8Graph (.transform [] [⟨none, none⟩] 1 0)
    none [none] [] 1 ⟨[], [], []⟩

/-- Node produced by the C8 witness run. -/
def c8B : BNode := (c8Run.getD (BNode.empty, ⟨[], [], []⟩)).1

/-- State produced by the C8 witness run. -/
def c8St : PState := (c8Run.getD (BNode.empty, ⟨[], [], []⟩)).2

/-! ## Theorems -/


/-- C3: the claim says an out-of-extents sparse voxel is dropped with a logged
warning and `load_from_model` never faults nor writes a padding cell.  The
source performs `voxels[index] = …` with no bound check: for a 1×1×1 model, a
malformed voxel at source position (0, 2, 0) linearizes to flat index 31 of a
27-cell grid and panics (`none` here), and a malformed voxel at (0, 0, 2)
linearizes to flat index 19, which is the padding cell (1, 0, 2), and is
silently written there — neither is dropped or logged. -/
theorem c3_no_defensive_bound_check :
    load_from_model ⟨⟨1, 1, 1⟩, [⟨0, 2, 0, 7⟩]⟩ [] = none
    ∧ (load_from_model ⟨⟨1, 1, 1⟩, [⟨0, 0, 2, 7⟩]⟩ []).map
        (fun r => r.1.voxels.get? (r.1.shape.linearize 1 0 2)) = some (some ⟨7, false⟩)
    ∧ paddingCell ⟨3, 3, 3⟩ 1 0 2
    ∧ RuntimeShape.linearize ⟨3, 3, 3⟩ 1 0 2 = 19 := by decide

theorem wrap32_eq_of_lt {n : Nat} (h : n < U32LIM) : wrap32 n = n := Nat.mod_eq_of_lt h

theorem sub32_eq {a b : Nat} (hb : b ≤ a) (ha : a < U32LIM) : sub32 a b = a - b := by
  unfold sub32
  rw [show a + U32LIM - b = (a - b) + U32LIM by omega, Nat.add_mod_right]
  exact Nat.mod_eq_of_lt (by omega)

/-- Within the extents, and when the full grid fits `u32`, `linearize` is the
plain positional sum and lands below the cell count. -/
theorem linearize_eq (s : RuntimeShape) {p0 p1 p2 : Nat}
    (h0 : p0 < s.d0) (h1 : p1 < s.d1) (h2 : p2 < s.d2)
    (hov : s.d0 * s.d1 * s.d2 < U32LIM) :
    s.linearize p0 p1 p2 = p0 + s.d0 * p1 + s.d0 * s.d1 * p2
    ∧ p0 + s.d0 * p1 + s.d0 * s.d1 * p2 < s.d0 * s.d1 * s.d2 := by
  have hlt : p0 + s.d0 * p1 + s.d0 * s.d1 * p2 < s.d0 * s.d1 * s.d2 := by
    calc p0 + s.d0 * p1 + s.d0 * s.d1 * p2
        < s.d0 * (1 + p1) + s.d0 * s.d1 * p2 := by
          have : s.d0 * (1 + p1) = s.d0 + s.d0 * p1 := by ring
          omega
      _ ≤ s.d0 * s.d1 + s.d0 * s.d1 * p2 := by
          have := Nat.mul_le_mul_left s.d0 (show 1 + p1 ≤ s.d1 by omega)
          omega
      _ = s.d0 * s.d1 * (1 + p2) := by ring
      _ ≤ s.d0 * s.d1 * s.d2 := Nat.mul_le_mul_left _ (by omega)
  exact ⟨wrap32_eq_of_lt (lt_trans hlt hov), hlt⟩

/-- Positional sums over the extents determine their digits uniquely. -/
theorem linearize_pos_inj (s : RuntimeShape) {p0 p1 p2 q0 q1 q2 : Nat}
    (hp0 : p0 < s.d0) (hp1 : p1 < s.d1) (hq0 : q0 < s.d0) (hq1 : q1 < s.d1)
    (h : p0 + s.d0 * p1 + s.d0 * s.d1 * p2 = q0 + s.d0 * q1 + s.d0 * s.d1 * q2) :
    p0 = q0 ∧ p1 = q1 ∧ p2 = q2 := by
  have hd0 : 0 < s.d0 := by omega
  have hd1 : 0 < s.d1 := by omega
  have e1 : p0 + s.d0 * p1 + s.d0 * s.d1 * p2 = p0 + s.d0 * (p1 + s.d1 * p2) := by ring
  have e2 : q0 + s.d0 * q1 + s.d0 * s.d1 * q2 = q0 + s.d0 * (q1 + s.d1 * q2) := by ring
  rw [e1, e2] at h
  have m0 : p0 = q0 := by
    have hm : p0 % s.d0 = q0 % s.d0 := by
      simpa [Nat.add_mul_mod_self_left] using congrArg (· % s.d0) h
    rwa [Nat.mod_eq_of_lt hp0, Nat.mod_eq_of_lt hq0] at hm
  subst m0
  have h2 : p1 + s.d1 * p2 = q1 + s.d1 * q2 :=
    Nat.eq_of_mul_eq_mul_left hd0 (Nat.add_left_cancel h)
  have m1 : p1 = q1 := by
    have hm : p1 % s.d1 = q1 % s.d1 := by
      simpa [Nat.add_mul_mod_self_left] using congrArg (· % s.d1) h2
    rwa [Nat.mod_eq_of_lt hp1, Nat.mod_eq_of_lt hq1] at hm
  subst m1
  exact ⟨rfl, rfl, Nat.eq_of_mul_eq_mul_left hd1 (Nat.add_left_cancel h2)⟩

/-- Search with pointwise-equal predicates finds the same result. -/
theorem find?_congr {α : Type} (l : List α) (p q : α → Bool)
    (h : ∀ x ∈ l, p x = q x) : l.find? p = l.find? q := by
  induction l with
  | nil => rfl
  | cons a l ih =>
    have ha := h a (List.mem_cons_self a l)
    simp only [List.find?_cons]
    rw [ha]
    cases q a with
    | true => rfl
    | false => exact ih (fun x hx => h x (List.mem_cons_of_mem a hx))

/-- The write loop succeeds when every target is in range, keeps the length,
and leaves each cell holding its last write, or its previous content when no
write targets it. -/
theorem writeVoxels_characterize (shape : RuntimeShape) (sizex : Nat)
    (tv : List (Nat × ℚ)) (l : List DotVoxel) :
    ∀ (vs : List Voxel) (ri : List ℚ),
      (∀ v ∈ l, targetIndex shape sizex v < vs.length) →
      ∃ vs' ri', writeVoxels shape sizex tv l vs ri = some (vs', ri')
        ∧ vs'.length = vs.length
        ∧ ∀ j, vs'.get? j = (match lastWrite shape sizex l j with
            | some w => some ⟨w.i, (lookupIor tv w.i).isSome⟩
            | none => vs.get? j) := by
  induction l with
  | nil =>
    intro vs ri _
    exact ⟨vs, ri, rfl, rfl, fun j => by simp [lastWrite]⟩
  | cons v rest ih =>
    intro vs ri hall
    have hv : targetIndex shape sizex v < vs.length := hall v (List.mem_cons_self v rest)
    have hrest : ∀ w ∈ rest, targetIndex shape sizex w
        < (vs.set (targetIndex shape sizex v)
            ⟨v.i, (lookupIor tv v.i).isSome⟩).length := by
      intro w hw
      rw [List.length_set]
      exact hall w (List.mem_cons_of_mem v hw)
    obtain ⟨vs', ri', heq, hlen, hget⟩ := ih
      (vs.set (targetIndex shape sizex v) ⟨v.i, (lookupIor tv v.i).isSome⟩)
      (match lookupIor tv v.i with
        | some r => ri ++ [r]
        | none => ri) hrest
    refine ⟨vs', ri', ?_, by rwa [List.length_set] at hlen, ?_⟩
    · simpa [writeVoxels, hv] using heq
    · intro j
      have hlast : lastWrite shape sizex (v :: rest) j
          = (lastWrite shape sizex rest j).or
              (if targetIndex shape sizex v = j then some v else none) := by
        unfold lastWrite
        rw [List.reverse_cons, List.find?_append]
        by_cases hj : targetIndex shape sizex v = j <;> simp [List.find?, hj]
      rw [hget j, hlast]
      cases hr : lastWrite shape sizex rest j with
      | some w => simp
      | none =>
        simp only [Option.or]
        by_cases hj : targetIndex shape sizex v = j
        · subst hj
          simp [List.get?_eq_getElem?, List.getElem?_set_self',
            List.getElem?_eq_getElem, hv]
        · simp [hj, List.get?_eq_getElem?, List.getElem?_set_ne hj]

/-- Full characterization of `load_from_model` on a model whose sparse voxels
all lie within its own extents (and whose padded grid fits `u32`): the build
succeeds, the grid extents are the axis-converted source size + 2 per axis,
every sparse voxel targets a non-padding cell, two sparse voxels collide only
at equal source coordinates, and each flat cell holds the translucency-tagged
image of the last write targeting it — `EMPTY_VOXEL` where none does. -/
theorem load_from_model_spec (model : DotVoxModel) (tv : List (Nat × ℚ))
    (hov : (model.size.x + 2) * (model.size.z + 2) * (model.size.y + 2) < U32LIM)
    (hin : ∀ v ∈ model.voxels,
      v.x < model.size.x ∧ v.y < model.size.y ∧ v.z < model.size.z) :
    ∃ data ri, load_from_model model tv = some (data, ri)
      ∧ data.shape = ⟨model.size.x + 2, model.size.z + 2, model.size.y + 2⟩
      ∧ data.voxels.length
          = (model.size.x + 2) * (model.size.z + 2) * (model.size.y + 2)
      ∧ (∀ v ∈ model.voxels,
          targetIndex data.shape model.size.x v
            = (model.size.x - v.x) + (model.size.x + 2) * (v.z + 1)
              + (model.size.x + 2) * (model.size.z + 2) * (v.y + 1)
          ∧ 1 ≤ model.size.x - v.x ∧ model.size.x - v.x ≤ model.size.x
          ∧ 1 ≤ v.z + 1 ∧ v.z + 1 ≤ model.size.z
          ∧ 1 ≤ v.y + 1 ∧ v.y + 1 ≤ model.size.y)
      ∧ (∀ v w, v ∈ model.voxels → w ∈ model.voxels →
          targetIndex data.shape model.size.x v = targetIndex data.shape model.size.x w →
          v.x = w.x ∧ v.y = w.y ∧ v.z = w.z)
      ∧ (∀ j, j < data.voxels.length →
          data.voxels.get? j
            = some (match lastWrite data.shape model.size.x model.voxels j with
                | some w => ⟨w.i, (lookupIor tv w.i).isSome⟩
                | none => EMPTY_VOXEL)) := by
  obtain ⟨⟨sx, sy, sz⟩, vxs⟩ := model
  dsimp only at hov hin ⊢
  have hdx : sx + 2 < U32LIM := by
    have h1 : (sx + 2) * 1 ≤ (sx + 2) * ((sz + 2) * (sy + 2)) :=
      Nat.mul_le_mul_left _ (Nat.one_le_iff_ne_zero.mpr (by positivity))
    have h2 : (sx + 2) * ((sz + 2) * (sy + 2)) = (sx + 2) * (sz + 2) * (sy + 2) := by ring
    omega
  have hdz : sz + 2 < U32LIM := by
    have h1 : (sz + 2) * 1 ≤ (sz + 2) * ((sx + 2) * (sy + 2)) :=
      Nat.mul_le_mul_left _ (Nat.one_le_iff_ne_zero.mpr (by positivity))
    have h2 : (sz + 2) * ((sx + 2) * (sy + 2)) = (sx + 2) * (sz + 2) * (sy + 2) := by ring
    omega
  have hdy : sy + 2 < U32LIM := by
    have h1 : (sy + 2) * 1 ≤ (sy + 2) * ((sx + 2) * (sz + 2)) :=
      Nat.mul_le_mul_left _ (Nat.one_le_iff_ne_zero.mpr (by positivity))
    have h2 : (sy + 2) * ((sx + 2) * (sz + 2)) = (sx + 2) * (sz + 2) * (sy + 2) := by ring
    omega
  have hsize : RuntimeShape.size ⟨sx + 2, sz + 2, sy + 2⟩ = (sx + 2) * (sz + 2) * (sy + 2) :=
    wrap32_eq_of_lt hov
  have htarget : ∀ v ∈ vxs,
      targetIndex ⟨sx + 2, sz + 2, sy + 2⟩ sx v
        = (sx - v.x) + (sx + 2) * (v.z + 1) + (sx + 2) * (sz + 2) * (v.y + 1)
      ∧ targetIndex ⟨sx + 2, sz + 2, sy + 2⟩ sx v < (sx + 2) * (sz + 2) * (sy + 2) := by
    intro v hv
    obtain ⟨hvx, hvy, hvz⟩ := hin v hv
    have hsub : sub32 sx v.x = sx - v.x := sub32_eq (le_of_lt hvx) (by omega)
    have hwz : wrap32 (v.z + 1) = v.z + 1 := wrap32_eq_of_lt (by omega)
    have hwy : wrap32 (v.y + 1) = v.y + 1 := wrap32_eq_of_lt (by omega)
    have hb0 : sx - v.x < (⟨sx + 2, sz + 2, sy + 2⟩ : RuntimeShape).d0 := by
      dsimp only
      omega
    have hb1 : v.z + 1 < (⟨sx + 2, sz + 2, sy + 2⟩ : RuntimeShape).d1 := by
      dsimp only
      omega
    have hb2 : v.y + 1 < (⟨sx + 2, sz + 2, sy + 2⟩ : RuntimeShape).d2 := by
      dsimp only
      omega
    have hlin := linearize_eq ⟨sx + 2, sz + 2, sy + 2⟩ hb0 hb1 hb2 hov
    unfold targetIndex
    rw [hsub, hwz, hwy]
    exact ⟨hlin.1, by rw [hlin.1]; exact hlin.2⟩
  have hall : ∀ v ∈ vxs,
      targetIndex ⟨sx + 2, sz + 2, sy + 2⟩ sx v
        < (List.replicate (RuntimeShape.size ⟨sx + 2, sz + 2, sy + 2⟩) EMPTY_VOXEL).length := by
    intro v hv
    rw [List.length_replicate, hsize]
    exact (htarget v hv).2
  obtain ⟨vs', ri', heq, hlen, hget⟩ :=
    writeVoxels_characterize ⟨sx + 2, sz + 2, sy + 2⟩ sx tv vxs
      (List.replicate (RuntimeShape.size ⟨sx + 2, sz + 2, sy + 2⟩) EMPTY_VOXEL) [] hall
  refine ⟨⟨⟨sx + 2, sz + 2, sy + 2⟩, vs'⟩, ri', ?_, rfl, ?_, ?_, ?_, ?_⟩
  · simp only [load_from_model]
    rw [wrap32_eq_of_lt hdx, wrap32_eq_of_lt hdz, wrap32_eq_of_lt hdy, heq]
  · rw [hlen, List.length_replicate, hsize]
  · intro v hv
    obtain ⟨hvx, hvy, hvz⟩ := hin v hv
    exact ⟨(htarget v hv).1, by omega, by omega, by omega, by omega, by omega, by omega⟩
  · intro v w hv hw hvw
    obtain ⟨hvx, hvy, hvz⟩ := hin v hv
    obtain ⟨hwx, hwy2, hwz2⟩ := hin w hw
    rw [(htarget v hv).1, (htarget w hw).1] at hvw
    have hb0 : sx - v.x < sx + 2 := by omega
    have hb1 : v.z + 1 < sz + 2 := by omega
    have hc0 : sx - w.x < sx + 2 := by omega
    have hc1 : w.z + 1 < sz + 2 := by omega
    obtain ⟨e0, e1, e2⟩ :=
      linearize_pos_inj ⟨sx + 2, sz + 2, sy + 2⟩ hb0 hb1 hc0 hc1 hvw
    exact ⟨by omega, by omega, by omega⟩
  · intro j hj
    rw [hget j]
    cases hr : lastWrite ⟨sx + 2, sz + 2, sy + 2⟩ sx vxs j with
    | some w => rfl
    | none =>
      rw [hlen, List.length_replicate] at hj
      simp [List.get?_eq_getElem?, List.getElem?_replicate, hj, EMPTY_VOXEL]

/-- C1: building a grid from a model with extents at least 1 per axis (and a
padded grid that fits `u32`) from sparse voxels inside the extents succeeds;
the grid extents are the axis-converted source size + 2 per axis; every
sparse voxel maps to a non-padding cell (each converted grid coordinate lies
strictly inside the padded extents); two sparse voxels map to the same cell
only if their source coordinates are equal; and each cell holds either the
`EMPTY_VOXEL` sentinel it was initialized with (when no write targets it) or
a `Voxel` whose translucency flag is set exactly when the written material
index has an entry in the refractive-index map. -/
theorem c1_grid_construction (model : DotVoxModel) (tv : List (Nat × ℚ))
    (_hx : 1 ≤ model.size.x) (_hy : 1 ≤ model.size.y) (_hz : 1 ≤ model.size.z)
    (hov : (model.size.x + 2) * (model.size.z + 2) * (model.size.y + 2) < U32LIM)
    (hin : ∀ v ∈ model.voxels,
      v.x < model.size.x ∧ v.y < model.size.y ∧ v.z < model.size.z) :
    ∃ data ri, load_from_model model tv = some (data, ri)
      ∧ data.shape = ⟨model.size.x + 2, model.size.z + 2, model.size.y + 2⟩
      ∧ (∀ v ∈ model.voxels,
          ¬ paddingCell data.shape (model.size.x - v.x) (v.z + 1) (v.y + 1)
          ∧ targetIndex data.shape model.size.x v
            = data.shape.linearize (model.size.x - v.x) (v.z + 1) (v.y + 1))
      ∧ (∀ v w, v ∈ model.voxels → w ∈ model.voxels →
          targetIndex data.shape model.size.x v = targetIndex data.shape model.size.x w →
          v.x = w.x ∧ v.y = w.y ∧ v.z = w.z)
      ∧ (∀ j, j < data.voxels.length →
          data.voxels.get? j
            = some (match lastWrite data.shape model.size.x model.voxels j with
                | some w => ⟨w.i, (lookupIor tv w.i).isSome⟩
                | none => EMPTY_VOXEL)) := by
  obtain ⟨data, ri, hload, hshape, hlen, htarget, hinj, hchar⟩ :=
    load_from_model_spec model tv hov hin
  refine ⟨data, ri, hload, hshape, ?_, hinj, hchar⟩
  intro v hv
  obtain ⟨heq, hb⟩ := htarget v hv
  obtain ⟨hvx, hvy, hvz⟩ := hin v hv
  constructor
  · rw [hshape]
    unfold paddingCell
    simp only
    omega
  · rw [heq]
    have hb0 : model.size.x - v.x < data.shape.d0 := by rw [hshape]; simp; omega
    have hb1 : v.z + 1 < data.shape.d1 := by rw [hshape]; simp; omega
    have hb2 : v.y + 1 < data.shape.d2 := by rw [hshape]; simp; omega
    have hov' : data.shape.d0 * data.shape.d1 * data.shape.d2 < U32LIM := by
      rw [hshape]; simpa using hov
    rw [(linearize_eq data.shape hb0 hb1 hb2 hov').1, hshape]

/-- C1 witness: a 2×1×1 model with two voxels, one refractive material. -/
theorem c1_witness :
    (1 ≤ 2 ∧ (2 + 2) * (1 + 2) * (1 + 2) < U32LIM
      ∧ ∀ v ∈ [(⟨0, 0, 0, 1⟩ : DotVoxel), ⟨1, 0, 0, 2⟩], v.x < 2 ∧ v.y < 1 ∧ v.z < 1)
    ∧ ∃ data ri,
      load_from_model ⟨⟨2, 1, 1⟩, [⟨0, 0, 0, 1⟩, ⟨1, 0, 0, 2⟩]⟩ [(1, 3/2)] = some (data, ri)
      ∧ data.shape = ⟨2 + 2, 1 + 2, 1 + 2⟩ := by
  refine ⟨⟨by omega, by decide, by decide⟩, ?_⟩
  obtain ⟨data, ri, hload, hshape, -, -, -⟩ :=
    c1_grid_construction ⟨⟨2, 1, 1⟩, [⟨0, 0, 0, 1⟩, ⟨1, 0, 0, 2⟩]⟩ [(1, 3/2)]
      (by decide) (by decide) (by decide) (by decide) (by decide)
  exact ⟨data, ri, hload, hshape⟩

/-- C2: round-trip between the grid builder and the voxel query interface.
For a grid built from an in-bounds sparse voxel list, querying any voxel-space
coordinate with `0 ≤ p < size` per axis (the unpadded size, in grid axis
convention) returns exactly the material index and translucency flag of the
last sparse voxel written at the corresponding source coordinate — the empty
sentinel where none was written — and querying any coordinate with a
component outside `[0, size)`, negative components included, returns `none`. -/
theorem c2_roundtrip_query (model : DotVoxModel) (tv : List (Nat × ℚ))
    (hov : (model.size.x + 2) * (model.size.z + 2) * (model.size.y + 2) < U32LIM)
    (hin : ∀ v ∈ model.voxels,
      v.x < model.size.x ∧ v.y < model.size.y ∧ v.z < model.size.z)
    (data : VoxelData) (ri : List ℚ)
    (hload : load_from_model model tv = some (data, ri))
    (name mesh material : String) (htl : Bool) (p : IVec3) :
    ((0 ≤ p.x ∧ p.x < (model.size.x : Int) ∧ 0 ≤ p.y ∧ p.y < (model.size.z : Int)
        ∧ 0 ≤ p.z ∧ p.z < (model.size.y : Int)) →
      VoxelModel.get_voxel_at_point ⟨name, data, mesh, material, htl⟩ p
        = some (match sourceVoxelAt model
              (model.size.x - 1 - p.x.toNat, p.z.toNat, p.y.toNat) with
            | some w => ⟨w.i, (lookupIor tv w.i).isSome⟩
            | none => EMPTY_VOXEL))
    ∧ (¬ (0 ≤ p.x ∧ p.x < (model.size.x : Int) ∧ 0 ≤ p.y ∧ p.y < (model.size.z : Int)
        ∧ 0 ≤ p.z ∧ p.z < (model.size.y : Int)) →
      VoxelModel.get_voxel_at_point ⟨name, data, mesh, material, htl⟩ p = none) := by
  obtain ⟨data', ri', hload', hshape, hlen, htarget, hinj, hchar⟩ :=
    load_from_model_spec model tv hov hin
  rw [hload] at hload'
  simp only [Option.some.injEq, Prod.mk.injEq] at hload'
  obtain ⟨hdd, -⟩ := hload'
  subst hdd
  obtain ⟨⟨sx, sy, sz⟩, vxs⟩ := model
  dsimp only at hov hin hshape hlen htarget hinj hchar ⊢
  rw [hshape] at htarget
  have hU : U32LIM = 4294967296 := by norm_num [U32LIM]
  have h4x : (sx + 2) * 4 ≤ (sx + 2) * (sz + 2) * (sy + 2) := by
    have h22 : 2 * 2 ≤ (sz + 2) * (sy + 2) := Nat.mul_le_mul (by omega) (by omega)
    have := Nat.mul_le_mul_left (sx + 2) (show 4 ≤ (sz + 2) * (sy + 2) by omega)
    have he : (sx + 2) * ((sz + 2) * (sy + 2)) = (sx + 2) * (sz + 2) * (sy + 2) := by ring
    omega
  have hx31 : sx < 2 ^ 31 := by
    have : (2 : Nat) ^ 31 = 2147483648 := by norm_num
    omega
  have h4z : (sz + 2) * 4 ≤ (sx + 2) * (sz + 2) * (sy + 2) := by
    have h22 : 2 * 2 ≤ (sx + 2) * (sy + 2) := Nat.mul_le_mul (by omega) (by omega)
    have := Nat.mul_le_mul_left (sz + 2) (show 4 ≤ (sx + 2) * (sy + 2) by omega)
    have he : (sz + 2) * ((sx + 2) * (sy + 2)) = (sx + 2) * (sz + 2) * (sy + 2) := by ring
    omega
  have hz31 : sz < 2 ^ 31 := by
    have : (2 : Nat) ^ 31 = 2147483648 := by norm_num
    omega
  have h4y : (sy + 2) * 4 ≤ (sx + 2) * (sz + 2) * (sy + 2) := by
    have h22 : 2 * 2 ≤ (sx + 2) * (sz + 2) := Nat.mul_le_mul (by omega) (by omega)
    have := Nat.mul_le_mul_left (sy + 2) (show 4 ≤ (sx + 2) * (sz + 2) by omega)
    have he : (sy + 2) * ((sx + 2) * (sz + 2)) = (sx + 2) * (sz + 2) * (sy + 2) := by ring
    omega
  have hy31 : sy < 2 ^ 31 := by
    have : (2 : Nat) ^ 31 = 2147483648 := by norm_num
    omega
  have hdsize : VoxelData.size data = (sx, sz, sy) := by
    unfold VoxelData.size VoxelData.padding
    rw [hshape]
    dsimp only
    rw [@sub32_eq (sx + 2) 2 (by omega) (by omega),
      @sub32_eq (sz + 2) 2 (by omega) (by omega),
      @sub32_eq (sy + 2) 2 (by omega) (by omega)]
    simp
  have hsizeI : VoxelModel.sizeI ⟨name, data, mesh, material, htl⟩
      = ⟨(sx : Int), (sz : Int), (sy : Int)⟩ := by
    unfold VoxelModel.sizeI
    rw [hdsize]
    rw [if_pos ⟨hx31, hz31, hy31⟩]
  constructor
  · intro hinb
    obtain ⟨hpx0, hpxs, hpy0, hpys, hpz0, hpzs⟩ := hinb
    have hqx : p.x.toNat < sx := by omega
    have hqy : p.y.toNat < sz := by omega
    have hqz : p.z.toNat < sy := by omega
    have hpim : VoxelModel.point_in_model ⟨name, data, mesh, material, htl⟩ p
        = some (p.x.toNat, p.y.toNat, p.z.toNat) := by
      unfold VoxelModel.point_in_model
      rw [hsizeI]
      dsimp only
      rw [if_neg (by omega), if_neg (by omega)]
    unfold VoxelModel.get_voxel_at_point
    rw [hpim]
    have hpad : VoxelData.padding data / 2 = 1 := by simp [VoxelData.padding]
    dsimp only
    rw [hpad]
    have hw0 : wrap32 (p.x.toNat + 1) = p.x.toNat + 1 := wrap32_eq_of_lt (by omega)
    have hw1 : wrap32 (p.y.toNat + 1) = p.y.toNat + 1 := wrap32_eq_of_lt (by omega)
    have hw2 : wrap32 (p.z.toNat + 1) = p.z.toNat + 1 := wrap32_eq_of_lt (by omega)
    rw [hw0, hw1, hw2, hshape]
    have hb0 : p.x.toNat + 1 < (⟨sx + 2, sz + 2, sy + 2⟩ : RuntimeShape).d0 := by
      dsimp only
      omega
    have hb1 : p.y.toNat + 1 < (⟨sx + 2, sz + 2, sy + 2⟩ : RuntimeShape).d1 := by
      dsimp only
      omega
    have hb2 : p.z.toNat + 1 < (⟨sx + 2, sz + 2, sy + 2⟩ : RuntimeShape).d2 := by
      dsimp only
      omega
    have hlin := linearize_eq ⟨sx + 2, sz + 2, sy + 2⟩ hb0 hb1 hb2 hov
    have hchar' := hchar ((p.x.toNat + 1) + (sx + 2) * (p.y.toNat + 1)
        + (sx + 2) * (sz + 2) * (p.z.toNat + 1)) (by rw [hlen]; exact hlin.2)
    rw [hshape] at hchar'
    rw [hlin.1, hchar']
    have hfind : lastWrite ⟨sx + 2, sz + 2, sy + 2⟩ sx vxs
          ((p.x.toNat + 1) + (sx + 2) * (p.y.toNat + 1)
            + (sx + 2) * (sz + 2) * (p.z.toNat + 1))
        = sourceVoxelAt ⟨⟨sx, sy, sz⟩, vxs⟩ (sx - 1 - p.x.toNat, p.z.toNat, p.y.toNat) := by
      unfold lastWrite sourceVoxelAt
      apply find?_congr
      intro v hv
      have hv' : v ∈ vxs := List.mem_reverse.mp hv
      obtain ⟨hvx, hvy, hvz⟩ := hin v hv'
      apply decide_eq_decide.mpr
      dsimp only
      constructor
      · intro ht
        rw [(htarget v hv').1] at ht
        obtain ⟨e0, e1, e2⟩ := linearize_pos_inj ⟨sx + 2, sz + 2, sy + 2⟩
          (show sx - v.x < sx + 2 by omega) (show v.z + 1 < sz + 2 by omega)
          (show p.x.toNat + 1 < sx + 2 by omega) (show p.y.toNat + 1 < sz + 2 by omega) ht
        exact ⟨by omega, by omega, by omega⟩
      · intro hvc
        obtain ⟨ex, ey, ez⟩ := hvc
        rw [(htarget v hv').1]
        have hxx : sx - v.x = p.x.toNat + 1 := by omega
        rw [hxx, ey, ez]
    rw [hfind]
  · intro hnb
    unfold VoxelModel.get_voxel_at_point
    have hpim : VoxelModel.point_in_model ⟨name, data, mesh, material, htl⟩ p = none := by
      unfold VoxelModel.point_in_model
      rw [hsizeI]
      dsimp only
      by_cases hc1 : (sx : Int) ≤ p.x ∨ (sz : Int) ≤ p.y ∨ (sy : Int) ≤ p.z
      · rw [if_pos hc1]
      · rw [if_neg hc1, if_pos (by omega)]
    rw [hpim]


/-- C2 witness: on `c2Model`, the in-bounds query (0,0,0) returns the written
voxel (material 7, translucent), the out-of-range query (1,0,0) returns
`none`, and the negative query (-1,0,0) returns `none`. -/
theorem c2_witness :
    ((1 + 2) * (1 + 2) * (1 + 2) < U32LIM)
    ∧ (∃ data ri, load_from_model c2Model [(7, 3/2)] = some (data, ri)
      ∧ VoxelModel.get_voxel_at_point ⟨"m", data, "", "", false⟩ ⟨0, 0, 0⟩ = some ⟨7, true⟩
      ∧ VoxelModel.get_voxel_at_point ⟨"m", data, "", "", false⟩ ⟨1, 0, 0⟩ = none
      ∧ VoxelModel.get_voxel_at_point ⟨"m", data, "", "", false⟩ ⟨-1, 0, 0⟩ = none) := by
  refine ⟨by decide, ?_⟩
  obtain ⟨data, ri, hload, -⟩ := load_from_model_spec c2Model [(7, 3/2)] (by decide) (by decide)
  refine ⟨data, ri, hload, ?_, ?_, ?_⟩
  · have h := (c2_roundtrip_query c2Model [(7, 3/2)] (by decide) (by decide) data ri hload
      "m" "" "" false ⟨0, 0, 0⟩).1 (by decide)
    exact h.trans (by decide)
  · exact (c2_roundtrip_query c2Model [(7, 3/2)] (by decide) (by decide) data ri hload
      "m" "" "" false ⟨1, 0, 0⟩).2 (by decide)
  · exact (c2_roundtrip_query c2Model [(7, 3/2)] (by decide) (by decide) data ri hload
      "m" "" "" false ⟨-1, 0, 0⟩).2 (by decide)


/-- C4 counterexample: the claim says a Shape reached with a non-empty
accumulated name gets that name assigned to its model id.  Running the name
discovery pass over `c4Graph`, the Shape at index 3 is reached through the
unnamed Transform at index 2 whose accumulated name is "A" (second conjunct),
but the name table stays `[none]` — the pass assigns the Transform's own
`node_name`, which is absent, not the accumulated name. -/
theorem c4_counterexample :
    find_model_names 10 [none] c4Graph (.transform [("_name", "A")] [] 1 0) none
      = some [none]
    ∧ (get_accumulated_and_node_name (some "A") none).1 = some "A" := by decide

/-- C4 (amended): when the name discovery pass reaches a Shape through a
Transform, the assignment is driven by the Transform's own `_name` attribute:
if present, the full accumulated name is assigned to the Shape's first
model id, overwriting any earlier entry; if absent, the table is unchanged
even when a parent accumulated name was inherited. -/
theorem c4_amended (fuel : Nat) (names : List (Option String)) (graph : List SceneNode)
    (attributes : List (String × String)) (frames : List Frame) (child layerId : Nat)
    (parent_name : Option String) (sa : List (String × String)) (m : ShapeModel)
    (rest : List ShapeModel)
    (hchild : graph.get? child = some (.shape sa (m :: rest)))
    (hmid : m.model_id < names.length) :
    find_model_names (fuel + 1) names graph (.transform attributes frames child layerId)
        parent_name
      = some (match (get_accumulated_and_node_name parent_name
                (dictGet attributes "_name")).2 with
              | some nm => names.set m.model_id (some nm)
              | none => names) := by
  obtain ⟨a, ha⟩ : ∃ a, names.get? m.model_id = some a := by
    cases h : names.get? m.model_id with
    | some a => exact ⟨a, rfl⟩
    | none => exact absurd (List.get?_eq_none.mp h) (by omega)
  rw [List.get?_eq_getElem?] at hchild ha
  cases h2 : (get_accumulated_and_node_name parent_name (dictGet attributes "_name")).2 with
  | none => simp [find_model_names, hchild, ha, h2]
  | some nm => simp [find_model_names, hchild, ha, h2]

/-- C4 amended-claim witness: in `c4Graph`, reaching the Shape at index 3
through a Transform named "B" under parent accumulated name "A" assigns the
full accumulated name "A/B" to model 0. -/
theorem c4_amended_witness :
    c4Graph.get? 3 = some (.shape [] [⟨0, []⟩])
    ∧ (0 : Nat) < 1
    ∧ find_model_names 5 [none] c4Graph (.transform [("_name", "B")] [] 3 0) (some "A")
        = some [some "A/B"] := by
  refine ⟨by decide, by decide, ?_⟩
  have h := c4_amended 4 [none] c4Graph [("_name", "B")] [] 3 0 (some "A") [] ⟨0, []⟩ []
    (by decide) (by decide)
  exact h.trans (by decide)


/-- C5: for every pair of optional parent accumulated name and own node name,
the first component of `get_accumulated_and_node_name` is the slash-join of
the present segments — both present joins them with "/", only the parent
passes it through unchanged (so an unnamed node hands its parent's name to
its children), only the own name yields it alone, and neither yields
nothing. -/
theorem c5_accumulated_name (pn nn : Option String) :
    (get_accumulated_and_node_name pn nn).1 = accumulated_path pn nn := by
  cases pn <;> cases nn <;>
    simp [get_accumulated_and_node_name, accumulated_path, String.intercalate,
      String.intercalate.go]

/-- C7: degenerate scene shapes are recovered, never fatal.  A Group or Shape
reached without an enclosing Transform logs the orphan warning and is
processed by `load_xform_child` in a freshly spawned wrapper node (first two
conjuncts).  A Transform nested directly inside another Transform logs the
nested warning, the wrapper node receives the default spatial bundle
(identity transform, inherited visibility) and the offending Transform is
processed as its child; the branch fails only if that inner processing does
(third conjunct).  The last two conjuncts run both recoveries to completion
on concrete degenerate nodes from arbitrary states. -/
theorem c7_degenerate_recovery :
    (∀ (rotOf : Nat → Mat3Q) (fuel : Nat) (graph : List SceneNode)
        (a : List (String × String)) (cs : List Nat) (pn : Option String)
        (mn : List (Option String)) (ls : List LayerInfo) (sc : ℚ) (st : PState),
      load_xform_node rotOf (fuel + 1) graph (.group a cs) pn mn ls sc st
        = load_xform_child rotOf fuel graph (.group a cs) BNode.empty pn mn ls sc
            { st with warnings := st.warnings ++ [orphanWarning] })
    ∧ (∀ (rotOf : Nat → Mat3Q) (fuel : Nat) (graph : List SceneNode)
        (a : List (String × String)) (ms : List ShapeModel) (pn : Option String)
        (mn : List (Option String)) (ls : List LayerInfo) (sc : ℚ) (st : PState),
      load_xform_node rotOf (fuel + 1) graph (.shape a ms) pn mn ls sc st
        = load_xform_child rotOf fuel graph (.shape a ms) BNode.empty pn mn ls sc
            { st with warnings := st.warnings ++ [orphanWarning] })
    ∧ (∀ (rotOf : Nat → Mat3Q) (fuel : Nat) (graph : List SceneNode)
        (a : List (String × String)) (frames : List Frame) (child layerId : Nat)
        (node : BNode) (pn : Option String) (mn : List (Option String))
        (ls : List LayerInfo) (sc : ℚ) (st : PState),
      load_xform_child rotOf (fuel + 1) graph (.transform a frames child layerId) node
          pn mn ls sc st
        = (load_xform_node rotOf fuel graph (.transform a frames child layerId) pn mn ls
            sc { st with warnings := st.warnings ++ [nestedWarning] }).map
            (fun r => ({ node with
                transform := some 1,
                visibility := some Visibility.inherited,
                children := node.children ++ [r.1] }, r.2)))
    ∧ (∀ (rotOf : Nat → Mat3Q) (sc : ℚ) (st : PState) (pn : Option String),
      (load_xform_node rotOf 2 [] (.shape [] [⟨0, []⟩]) pn [none] [] sc st).isSome = true)
    ∧ (∀ (rotOf : Nat → Mat3Q) (sc : ℚ) (st : PState) (pn : Option String),
      (load_xform_child rotOf 3 [.shape [] [⟨0, []⟩]] (.transform [] [⟨none, none⟩] 0 0)
        BNode.empty pn [none] [] sc st).isSome = true) := by
  refine ⟨fun _ _ _ _ _ _ _ _ _ _ => rfl, fun _ _ _ _ _ _ _ _ _ _ => rfl, ?_, ?_, ?_⟩
  · intro rotOf fuel graph a frames child layerId node pn mn ls sc st
    cases h : load_xform_node rotOf fuel graph (.transform a frames child layerId) pn mn ls
        sc { st with warnings := st.warnings ++ [nestedWarning] } with
    | none => simp [load_xform_child, h]
    | some r => simp [load_xform_child, h]
  · intro rotOf sc st pn
    rfl
  · intro rotOf sc st pn
    cases pn <;> rfl


theorem StepOk.rfl (s : PState) : StepOk s s :=
  ⟨fun _ h => h, fun _ h => h, id⟩

theorem StepOk.trans {a b c : PState} (h1 : StepOk a b) (h2 : StepOk b c) : StepOk a c :=
  ⟨fun x hx => h2.1 x (h1.1 x hx), fun x hx => h2.2.1 x (h1.2.1 x hx),
    fun hi => h2.2.2 (h1.2.2 hi)⟩

theorem stepOk_warn (s : PState) (w : List String) :
    StepOk s { s with warnings := s.warnings ++ w } := by
  refine ⟨fun x hx => ?_, fun x hx => hx, fun hi => hi⟩
  exact List.mem_append_left _ hx

theorem stepOk_register (s : PState) (nm : String) (h : nm ∉ s.subassets) :
    StepOk s { s with
      subassets := s.subassets ++ [nm],
      registered := s.registered ++ [nm] } := by
  refine ⟨fun x hx => hx, fun x hx => List.mem_append_left _ hx, fun hi => ⟨?_, ?_⟩⟩
  · refine List.Nodup.append hi.1 (List.nodup_singleton nm) ?_
    intro x hx hx'
    rw [List.mem_singleton] at hx'
    subst hx'
    exact h (hi.2 x hx)
  · intro n hn
    rcases List.mem_append.mp hn with hn | hn
    · exact List.mem_append_left _ (hi.2 n hn)
    · exact List.mem_append_right _ hn

/-- Every run of the tree-build traversal is a `StepOk` step: warnings and
the dedup set only grow, and the registration invariant is preserved; in
particular a sub-scene name is registered only at the moment it is first
inserted into the dedup set. -/
theorem pass2_stepOk (fuel : Nat) :
    (∀ rotOf graph sn pn mn ls sc st b st',
        load_xform_node rotOf fuel graph sn pn mn ls sc st = some (b, st') → StepOk st st')
    ∧ (∀ rotOf graph sn node pn mn ls sc st b st',
        load_xform_child rotOf fuel graph sn node pn mn ls sc st = some (b, st') →
          StepOk st st')
    ∧ (∀ rotOf graph cs node pn mn ls sc st b st',
        load_xform_children rotOf fuel graph cs node pn mn ls sc st = some (b, st') →
          StepOk st st')
    ∧ (∀ rotOf graph sn pn mn ls sc st ob st',
        parse_scene_graph rotOf fuel graph sn pn mn ls sc st = some (ob, st') →
          StepOk st st') := by
  induction fuel with
  | zero =>
    refine ⟨?_, ?_, ?_, ?_⟩
    · intro rotOf graph sn pn mn ls sc st b st' h
      simp [load_xform_node] at h
    · intro rotOf graph sn node pn mn ls sc st b st' h
      simp [load_xform_child] at h
    · intro rotOf graph cs node pn mn ls sc st b st' h
      simp [load_xform_children] at h
    · intro rotOf graph sn pn mn ls sc st ob st' h
      simp [parse_scene_graph] at h
  | succ n ih =>
    obtain ⟨ihN, ihC, ihCs, ihP⟩ := ih
    refine ⟨?_, ?_, ?_, ?_⟩
    · intro rotOf graph sn pn mn ls sc st b st' h
      cases sn with
      | transform attrs frames child layerId =>
        simp only [load_xform_node] at h
        split at h
        · exact absurd h (by simp)
        · rename_i childNode heq
          split at h
          · exact absurd h (by simp)
          · rename_i b1 st1 heq1
            split at h
            · exact absurd h (by simp)
            · rename_i frame heqf
              split at h
              · simp only [Option.some.injEq, Prod.mk.injEq] at h
                obtain ⟨-, hst⟩ := h
                subst hst
                exact (ihC rotOf graph childNode BNode.empty _ mn ls sc st b1 st1
                  heq1).trans (stepOk_warn st1 _)
              · rename_i nm heqn
                split at h
                · simp only [Option.some.injEq, Prod.mk.injEq] at h
                  obtain ⟨-, hst⟩ := h
                  subst hst
                  exact (ihC rotOf graph childNode BNode.empty _ mn ls sc st b1 st1
                    heq1).trans (stepOk_warn st1 _)
                · rename_i hnot
                  split at h
                  · exact absurd h (by simp)
                  · rename_i ob st3 heq3
                    simp only [Option.some.injEq, Prod.mk.injEq] at h
                    obtain ⟨-, hst⟩ := h
                    subst hst
                    exact (((ihC rotOf graph childNode BNode.empty _ mn ls sc st b1 st1
                      heq1).trans (stepOk_warn st1
                        (parse_bool (dictGet attrs "_hidden")).2)).trans
                      (stepOk_register _ nm hnot)).trans
                      (ihP rotOf graph _ pn mn ls sc _ ob _ heq3)
      | group a cs =>
        simp only [load_xform_node] at h
        exact (stepOk_warn st _).trans
          (ihC rotOf graph (.group a cs) BNode.empty pn mn ls sc _ b st' h)
      | shape a ms =>
        simp only [load_xform_node] at h
        exact (stepOk_warn st _).trans
          (ihC rotOf graph (.shape a ms) BNode.empty pn mn ls sc _ b st' h)
    · intro rotOf graph sn node pn mn ls sc st b st' h
      cases sn with
      | transform a frames child layerId =>
        simp only [load_xform_child] at h
        split at h
        · exact absurd h (by simp)
        · rename_i childB st1 heq
          simp only [Option.some.injEq, Prod.mk.injEq] at h
          obtain ⟨-, hst⟩ := h
          subst hst
          exact (stepOk_warn st _).trans
            (ihN rotOf graph _ pn mn ls sc _ childB _ heq)
      | group a cs =>
        simp only [load_xform_child] at h
        exact ihCs rotOf graph cs _ pn mn ls sc st b st' h
      | shape a ms =>
        simp only [load_xform_child] at h
        split at h
        · exact absurd h (by simp)
        · rename_i m heqm
          split at h
          · exact absurd h (by simp)
          · rename_i mnm heqn
            simp only [Option.some.injEq, Prod.mk.injEq] at h
            obtain ⟨-, hst⟩ := h
            subst hst
            exact StepOk.rfl st
    · intro rotOf graph cs node pn mn ls sc st b st' h
      cases cs with
      | nil =>
        simp only [load_xform_children, Option.some.injEq, Prod.mk.injEq] at h
        obtain ⟨-, hst⟩ := h
        subst hst
        exact StepOk.rfl st
      | cons c rest =>
        simp only [load_xform_children] at h
        split at h
        · exact absurd h (by simp)
        · rename_i childNode heqc
          split at h
          · exact absurd h (by simp)
          · rename_i childB st1 heq1
            exact (ihN rotOf graph childNode pn mn ls sc st childB st1 heq1).trans
              (ihCs rotOf graph rest _ pn mn ls sc st1 b st' h)
    · intro rotOf graph sn pn mn ls sc st ob st' h
      cases sn with
      | transform attrs frames child layerId =>
        simp only [parse_scene_graph] at h
        split at h
        · exact absurd h (by simp)
        · rename_i childNode heq
          split at h
          · exact absurd h (by simp)
          · rename_i b1 st1 heq1
            simp only [Option.some.injEq, Prod.mk.injEq] at h
            obtain ⟨-, hst⟩ := h
            subst hst
            exact (ihC rotOf graph childNode BNode.empty _ mn ls sc st b1 st1
              heq1).trans (stepOk_warn st1 _)
      | group a cs =>
        simp only [parse_scene_graph, Option.some.injEq, Prod.mk.injEq] at h
        obtain ⟨-, hst⟩ := h
        subst hst
        exact StepOk.rfl st
      | shape a ms =>
        simp only [parse_scene_graph, Option.some.injEq, Prod.mk.injEq] at h
        obtain ⟨-, hst⟩ := h
        subst hst
        exact StepOk.rfl st

/-- C6: whenever `load_xform_node` completes on a Transform node, the
visibility it inserted is `Hidden` exactly when the node's own `_hidden`
attribute parses to true or its layer id resolves to a hidden layer, and
`Inherited` otherwise (in particular an unresolvable layer id contributes
nothing); any attribute string other than "1" or "0" parses to false with the
logged warning, and every warning the parse emits ends up in the final
warning log — neither condition makes the traversal fail. -/
theorem c6_visibility_resolution (rotOf : Nat → Mat3Q) (fuel : Nat) (graph : List SceneNode)
    (attributes : List (String × String)) (frames : List Frame) (child layerId : Nat)
    (pn : Option String) (mn : List (Option String)) (ls : List LayerInfo) (sc : ℚ)
    (st : PState) (b : BNode) (st' : PState)
    (h : load_xform_node rotOf (fuel + 1) graph (.transform attributes frames child layerId)
        pn mn ls sc st = some (b, st')) :
    (b.visibility = some Visibility.hidden
        ↔ ((parse_bool (dictGet attributes "_hidden")).1 = true
            ∨ ∃ layer, ls.get? layerId = some layer ∧ layer.is_hidden = true))
    ∧ (b.visibility = some Visibility.hidden ∨ b.visibility = some Visibility.inherited)
    ∧ (∀ s, s ≠ "1" → s ≠ "0" → parse_bool (some s) = (false, [invalidBoolWarning]))
    ∧ (∀ w ∈ (parse_bool (dictGet attributes "_hidden")).2, w ∈ st'.warnings) := by
  have hpb : ∀ s, s ≠ "1" → s ≠ "0" → parse_bool (some s) = (false, [invalidBoolWarning]) := by
    intro s h1 h0
    unfold parse_bool
    split <;> simp_all
  have hvis' :
      ((if ((parse_bool (dictGet attributes "_hidden")).1
            || ((ls.get? layerId).map LayerInfo.is_hidden).getD false) = true
          then Visibility.hidden else Visibility.inherited) = Visibility.hidden
        ↔ ((parse_bool (dictGet attributes "_hidden")).1 = true
            ∨ ∃ layer, ls.get? layerId = some layer ∧ layer.is_hidden = true)) := by
    rcases hls : ls.get? layerId with _ | layer
    · cases hpb1 : (parse_bool (dictGet attributes "_hidden")).1 <;> simp [hls, hpb1]
    · cases hpb1 : (parse_bool (dictGet attributes "_hidden")).1 <;>
        cases hlh : layer.is_hidden <;> simp [hls, hpb1, hlh]
  simp only [load_xform_node] at h
  split at h
  · exact absurd h (by simp)
  · rename_i childNode heq
    split at h
    · exact absurd h (by simp)
    · rename_i b1 st1 heq1
      split at h
      · exact absurd h (by simp)
      · rename_i frame heqf
        split at h
        · simp only [Option.some.injEq, Prod.mk.injEq] at h
          obtain ⟨hb, hst⟩ := h
          subst hb
          subst hst
          refine ⟨by simpa using hvis', by cases hif : ((parse_bool
            (dictGet attributes "_hidden")).1
              || ((ls.get? layerId).map LayerInfo.is_hidden).getD false) <;>
            simp [hif], hpb, ?_⟩
          intro w hw
          exact List.mem_append_right _ hw
        · rename_i nm heqn
          split at h
          · simp only [Option.some.injEq, Prod.mk.injEq] at h
            obtain ⟨hb, hst⟩ := h
            subst hb
            subst hst
            refine ⟨by simpa using hvis', by cases hif : ((parse_bool
              (dictGet attributes "_hidden")).1
                || ((ls.get? layerId).map LayerInfo.is_hidden).getD false) <;>
              simp [hif], hpb, ?_⟩
            intro w hw
            exact List.mem_append_right _ hw
          · rename_i hnot
            split at h
            · exact absurd h (by simp)
            · rename_i ob st3 heq3
              simp only [Option.some.injEq, Prod.mk.injEq] at h
              obtain ⟨hb, hst⟩ := h
              subst hb
              subst hst
              refine ⟨by simpa using hvis', by cases hif : ((parse_bool
                (dictGet attributes "_hidden")).1
                  || ((ls.get? layerId).map LayerInfo.is_hidden).getD false) <;>
                simp [hif], hpb, ?_⟩
              intro w hw
              have hmem : w ∈ ({ st1 with
                  warnings := st1.warnings ++ (parse_bool (dictGet attributes "_hidden")).2 } :
                    PState).warnings := List.mem_append_right _ hw
              have hstep := (pass2_stepOk fuel).2.2.2 rotOf graph _ pn mn ls sc _ ob _ heq3
              exact hstep.1 w hmem


/-- C6 witness: running `load_xform_node` on `c6Node` (malformed boolean,
unresolvable layer id 7 in an empty layer table) succeeds with a visibility
that is not `Hidden`, and logs the invalid-boolean warning. -/
theorem c6_witness :
    c6Run = some (c6B, c6St)
    ∧ ¬ c6B.visibility = some Visibility.hidden
    ∧ invalidBoolWarning ∈ c6St.warnings := by
  refine ⟨rfl, ?_, ?_⟩
  · have hc := c6_visibility_resolution rotIdentity 4 [.shape [] [⟨0, []⟩]]
      [("_hidden", "banana")] [⟨none, none⟩] 0 7 none [none] [] 1 ⟨[], [], []⟩ c6B c6St rfl
    rw [hc.1]
    decide
  · have hc := c6_visibility_resolution rotIdentity 4 [.shape [] [⟨0, []⟩]]
      [("_hidden", "banana")] [⟨none, none⟩] 0 7 none [none] [] 1 ⟨[], [], []⟩ c6B c6St rfl
    exact hc.2.2.2 invalidBoolWarning (by decide)

/-- C8: during one tree-build traversal from a fresh state, every sub-scene
name is registered at most once: the final list of labels passed to the
sub-asset scope has no duplicates (and each registered name is in the dedup
set), because a named Transform generates a sub-scene only when its name was
not already inserted into the set. -/
theorem c8_subscene_registered_once (rotOf : Nat → Mat3Q) (fuel : Nat)
    (graph : List SceneNode) (sn : SceneNode) (pn : Option String)
    (mn : List (Option String)) (ls : List LayerInfo) (sc : ℚ) (b : BNode) (st' : PState)
    (h : load_xform_node rotOf fuel graph sn pn mn ls sc ⟨[], [], []⟩ = some (b, st')) :
    st'.registered.Nodup ∧ ∀ n ∈ st'.registered, n ∈ st'.subassets :=
  ((pass2_stepOk fuel).1 rotOf graph sn pn mn ls sc ⟨[], [], []⟩ b st' h).2.2
    ⟨List.nodup_nil, by simp⟩


/-- C8 witness: traversing `c8Graph`, whose two named siblings share the name
"A", registers the sub-scene name "A" exactly once and the registered list
has no duplicates. -/
theorem c8_witness :
    c8Run = some (c8B, c8St)
    ∧ c8St.registered = ["A"]
    ∧ c8St.registered.Nodup := by
  refine ⟨rfl, by decide, ?_⟩
  exact (c8_subscene_registered_once rotIdentity 20 c8Graph (.transform [] [⟨none, none⟩] 1 0)
    none [none] [] 1 c8B c8St rfl).1

/-- C9: a frame with no position attribute yields exactly the identity
transform, for every interpretation of the orientation math — any orientation
data carried by such a frame is ignored entirely. -/
theorem c9_no_position_is_identity (rotOf : Nat → Mat3Q) (frame : Frame) (scene_scale : ℚ)
    (h : frame.position = none) :
    transform_from_frame rotOf frame scene_scale = 1 := by
  unfold transform_from_frame
  rw [h]

/-- C9 witness: a concrete frame carrying orientation data but no position
yields the identity transform. -/
theorem c9_witness :
    (Frame.position ⟨none, some 5⟩ = none)
    ∧ transform_from_frame rotIdentity ⟨none, some 5⟩ 2 = 1 :=
  ⟨rfl, c9_no_position_is_identity rotIdentity ⟨none, some 5⟩ 2 rfl⟩


theorem take_one_head {α : Type} (l : List α) : (l.take 1).head? = l.head? := by
  cases l <;> rfl

/-- The name discovery pass is invariant under truncating every Shape's model
list to its first entry. -/
theorem trunc_find (fuel : Nat) :
    (∀ names graph node pn,
      find_model_names fuel names (graph.map truncModels) (truncModels node) pn
        = find_model_names fuel names graph node pn)
    ∧ (∀ names graph cs acc,
      find_model_names_children fuel names (graph.map truncModels) cs acc
        = find_model_names_children fuel names graph cs acc) := by
  induction fuel with
  | zero => exact ⟨fun _ _ _ _ => rfl, fun _ _ _ _ => rfl⟩
  | succ n ih =>
    obtain ⟨ihF, ihC⟩ := ih
    constructor
    · intro names graph node pn
      cases node with
      | transform attrs frames child layerId =>
        simp only [truncModels, find_model_names, List.get?_map]
        cases hg : graph.get? child with
        | none => simp [hg]
        | some gc =>
          cases gc with
          | transform a2 f2 c2 l2 => simp [hg, truncModels]
          | group a2 cs => simp [hg, truncModels, ihC]
          | shape a2 ms =>
            simp only [hg, Option.map_some', truncModels, take_one_head]
      | group a cs => simp [truncModels, find_model_names]
      | shape a ms => simp [truncModels, find_model_names]
    · intro names graph cs acc
      cases cs with
      | nil => rfl
      | cons c rest =>
        simp only [find_model_names_children, List.get?_map]
        cases hg : graph.get? c with
        | none => simp [hg]
        | some gc =>
          simp only [hg, Option.map_some']
          rw [ihF]
          cases find_model_names n names graph gc acc with
          | none => rfl
          | some names2 => exact ihC names2 graph rest acc

/-- The tree-build pass is invariant under truncating every Shape's model
list to its first entry. -/
theorem trunc_pass2 (fuel : Nat) :
    (∀ rotOf graph sn pn mn ls sc st,
      load_xform_node rotOf fuel (graph.map truncModels) (truncModels sn) pn mn ls sc st
        = load_xform_node rotOf fuel graph sn pn mn ls sc st)
    ∧ (∀ rotOf graph sn node pn mn ls sc st,
      load_xform_child rotOf fuel (graph.map truncModels) (truncModels sn) node pn mn ls
          sc st
        = load_xform_child rotOf fuel graph sn node pn mn ls sc st)
    ∧ (∀ rotOf graph cs node pn mn ls sc st,
      load_xform_children rotOf fuel (graph.map truncModels) cs node pn mn ls sc st
        = load_xform_children rotOf fuel graph cs node pn mn ls sc st)
    ∧ (∀ rotOf graph sn pn mn ls sc st,
      parse_scene_graph rotOf fuel (graph.map truncModels) (truncModels sn) pn mn ls sc st
        = parse_scene_graph rotOf fuel graph sn pn mn ls sc st) := by
  induction fuel with
  | zero =>
    exact ⟨fun _ _ _ _ _ _ _ _ => rfl, fun _ _ _ _ _ _ _ _ _ => rfl,
      fun _ _ _ _ _ _ _ _ _ => rfl, fun _ _ _ _ _ _ _ _ => rfl⟩
  | succ n ih =>
    obtain ⟨ihN, ihC, ihCs, ihP⟩ := ih
    refine ⟨?_, ?_, ?_, ?_⟩
    · intro rotOf graph sn pn mn ls sc st
      cases sn with
      | transform attrs frames child layerId =>
        have ihP' := ihP rotOf graph (.transform attrs frames child layerId) pn mn ls sc
        simp only [truncModels] at ihP'
        simp only [truncModels, load_xform_node, List.get?_map]
        cases hg : graph.get? child with
        | none => simp [hg]
        | some childNode =>
          simp only [hg, Option.map_some']
          rw [ihC]
          cases load_xform_child rotOf n graph childNode BNode.empty
              (get_accumulated_and_node_name pn (dictGet attrs "_name")).1 mn ls sc st with
          | none => rfl
          | some r =>
            cases frames.head? with
            | none => rfl
            | some frame =>
              cases (get_accumulated_and_node_name pn (dictGet attrs "_name")).2 with
              | none => rfl
              | some nm =>
                by_cases hmem : nm ∈ ({ r.2 with
                    warnings := r.2.warnings
                      ++ (parse_bool (dictGet attrs "_hidden")).2 } : PState).subassets
                · simp only [hmem, if_true]
                · simp only [hmem, if_false]
                  rw [ihP']
      | group a cs =>
        simp only [truncModels, load_xform_node]
        have ihC' := ihC rotOf graph (.group a cs) BNode.empty pn mn ls sc
        simp only [truncModels] at ihC'
        exact ihC' _
      | shape a ms =>
        simp only [truncModels, load_xform_node]
        have ihC' := ihC rotOf graph (.shape a ms) BNode.empty pn mn ls sc
        simp only [truncModels] at ihC'
        exact ihC' _
    · intro rotOf graph sn node pn mn ls sc st
      cases sn with
      | transform attrs frames child layerId =>
        simp only [truncModels, load_xform_child]
        have ihN' := ihN rotOf graph (.transform attrs frames child layerId) pn mn ls sc
        simp only [truncModels] at ihN'
        rw [ihN']
      | group a cs =>
        simp only [truncModels, load_xform_child]
        exact ihCs rotOf graph cs _ pn mn ls sc st
      | shape a ms =>
        simp only [truncModels, load_xform_child, take_one_head]
    · intro rotOf graph cs node pn mn ls sc st
      cases cs with
      | nil => rfl
      | cons c rest =>
        simp only [load_xform_children, List.get?_map]
        cases hg : graph.get? c with
        | none => simp [hg]
        | some childNode =>
          simp only [hg, Option.map_some']
          rw [ihN]
          cases load_xform_node rotOf n graph childNode pn mn ls sc st with
          | none => rfl
          | some r => exact ihCs rotOf graph rest _ pn mn ls sc r.2
    · intro rotOf graph sn pn mn ls sc st
      cases sn with
      | transform attrs frames child layerId =>
        simp only [truncModels, parse_scene_graph, List.get?_map]
        cases hg : graph.get? child with
        | none => simp [hg]
        | some childNode =>
          simp only [hg, Option.map_some']
          rw [ihC]
      | group a cs => rfl
      | shape a ms => rfl

/-- C10: for every Shape node, the loader depends only on the first entry of
its model list — truncating every Shape's model list to its first element
(dropping any additional entries) leaves the name discovery pass, the
tree-build traversal and the root scene construction unchanged, for every
graph, traversal root, state and fuel. -/
theorem c10_only_first_model_entry :
    (∀ fuel names graph node pn,
      find_model_names fuel names (graph.map truncModels) (truncModels node) pn
        = find_model_names fuel names graph node pn)
    ∧ (∀ rotOf fuel graph node pn mn ls sc st,
      load_xform_node rotOf fuel (graph.map truncModels) (truncModels node) pn mn ls sc st
        = load_xform_node rotOf fuel graph node pn mn ls sc st)
    ∧ (∀ rotOf fuel graph node pn mn ls sc st,
      parse_scene_graph rotOf fuel (graph.map truncModels) (truncModels node) pn mn ls
          sc st
        = parse_scene_graph rotOf fuel graph node pn mn ls sc st) :=
  ⟨fun fuel => (trunc_find fuel).1,
    fun rotOf fuel => (trunc_pass2 fuel).1 rotOf,
    fun rotOf fuel => (trunc_pass2 fuel).2.2.2 rotOf⟩

end VoxScene
